import Mathlib

/-!
Shallow embedding of the macro-lab scoring and corpus-normalization pipeline
(`src/scraper/scoring.py`, `src/scraper/storage.py`, `src/main.py`).

Modelling conventions:
* Python floats are modelled as exact rationals (`ℚ`) where the source only
  uses field operations, and as reals (`ℝ`) where `math.sqrt` is involved.
* `round(x, n)` is modelled as `(round (10^n * x)) / 10^n` with Mathlib's
  nearest-integer `round` (the source's float `round` differs only on exact
  ties and float representation noise).
* Python lists/dicts are Lean lists (dict literals keep declaration order;
  both source dicts have no duplicate keys, so association-list lookup
  agrees with Python dict lookup).
-/

namespace MacroLab

/-- Python `round(x, 2)` of the source, over any ordered field with a floor. -/
def round2 {α : Type} [LinearOrderedField α] [FloorRing α] (x : α) : α :=
  ((round (100 * x) : ℤ) : α) / 100

/-- Python `round(x, 4)` of the source. -/
def round4 {α : Type} [LinearOrderedField α] [FloorRing α] (x : α) : α :=
  ((round (10000 * x) : ℤ) : α) / 10000

/-- Python whitespace (`\s`, `str.split()` separators), restricted to ASCII. -/
def pySpace (c : Char) : Bool :=
  c = ' ' || c = '\t' || c = '\n' || c = '\r' || c = '\x0b' || c = '\x0c'

/-- Python `str.split()` with no argument: maximal runs of non-whitespace.
`acc` carries the (reversed) current word, so the recursion is structural. -/
def pySplitAux (acc : List Char) : List Char → List (List Char)
  | [] => if acc = [] then [] else [acc.reverse]
  | c :: rest =>
    if pySpace c then
      if acc = [] then pySplitAux [] rest else acc.reverse :: pySplitAux [] rest
    else pySplitAux (c :: acc) rest

/-- Python `str.split()` with no argument. -/
def pySplit (s : List Char) : List (List Char) :=
  pySplitAux [] s

/-- Non-overlapping occurrence count of a (non-empty) pattern, as Python
`str.count` computes it: scan left to right, and after a match resume
after the matched span.  `skip` counts positions still inside the last
match, so the recursion is structural in `s`. -/
def countOccAux (p : List Char) : Nat → List Char → Nat
  | _, [] => 0
  | 0, c :: rest =>
    if p.isPrefixOf (c :: rest) then 1 + countOccAux p (p.length - 1) rest
    else countOccAux p 0 rest
  | skip + 1, _ :: rest => countOccAux p skip rest

/-- Python `s.count(p)` for the non-empty patterns of the lexicon tables
(the tables contain no empty phrase; the empty pattern returns 0 here). -/
def countOcc (p : List Char) (s : List Char) : Nat :=
  if p = [] then 0 else countOccAux p 0 s

/-- Python `pattern in s` substring test. -/
def substrB (p : List Char) (s : List Char) : Bool :=
  match s with
  | [] => p.isEmpty
  | c :: rest => p.isPrefixOf (c :: rest) || substrB p rest

/-- Step `re.sub(r'[\r\n]+', ' ', text)` of `_preprocess`: each run of CR/LF becomes one space.
The `inRun` flag marks that the previous character was CR/LF, keeping the
recursion structural. -/
def collapseCRLFAux (inRun : Bool) : List Char → List Char
  | [] => []
  | c :: rest =>
    if c = '\r' || c = '\n' then
      if inRun then collapseCRLFAux true rest else ' ' :: collapseCRLFAux true rest
    else c :: collapseCRLFAux false rest

/-- Step `re.sub(r'[\r\n]+', ' ', text)` of `_preprocess`. -/
def collapseCRLF (s : List Char) : List Char :=
  collapseCRLFAux false s

/-- Step `re.sub(r'[^a-z0-9\s]', ' ', text)` of `_preprocess`, on a single character. -/
def keepAlnumSpace (c : Char) : Char :=
  if ('a' ≤ c && c ≤ 'z') || ('0' ≤ c && c ≤ '9') || pySpace c then c else ' '

/-- Step `re.sub(r'\s+', ' ', text)` of `_preprocess`: each whitespace run becomes one space
(structural recursion with an in-run flag, as for CR/LF collapsing). -/
def collapseWSAux (inRun : Bool) : List Char → List Char
  | [] => []
  | c :: rest =>
    if pySpace c then
      if inRun then collapseWSAux true rest else ' ' :: collapseWSAux true rest
    else c :: collapseWSAux false rest

/-- Step `re.sub(r'\s+', ' ', text)` of `_preprocess`. -/
def collapseWS (s : List Char) : List Char :=
  collapseWSAux false s

/-- Python `str.strip()`. -/
def pyStrip (s : List Char) : List Char :=
  ((s.dropWhile pySpace).reverse.dropWhile pySpace).reverse

/-- Function `_preprocess` of `scoring.py`: collapse CR/LF, lowercase, replace every
character outside `[a-z0-9\s]` by a space, collapse whitespace, strip. -/
def preprocess (text : String) : String :=
  ⟨pyStrip (collapseWS (((collapseCRLF text.toList).map Char.toLower).map keepAlnumSpace))⟩

/-- The adjacent-bigram list built by `_tokenize`:
`[' '.join(words[i:i+2]) for i in range(len(words) - 1)]`. -/
def bigrams : List String → List String
  | a :: b :: rest => (a ++ " " ++ b) :: bigrams (b :: rest)
  | _ => []

/-- Function `_tokenize` of `scoring.py`: unigrams plus adjacent bigrams. -/
def tokenize (text : String) : List String :=
  let words := (pySplit text.toList).map (fun w => (⟨w⟩ : String))
  words ++ bigrams words

/-- Table `SENTIMENT_DICT` of `scoring.py`, in declaration order (no duplicate keys). -/
def SENTIMENT_DICT : List (String × ℚ) := [
  ("crash", -5.0), ("meltdown", -5.0), ("collapse", -5.0), ("bankruptcy", -5.0),
  ("default", -5.0), ("insolvency", -5.0), ("liquidation", -5.0),
  ("panic", -4.8), ("contagion", -4.8), ("systemic", -4.7),
  ("depression", -4.7), ("turmoil", -4.6), ("plunge", -4.6),
  ("sanctions", -4.5), ("war", -4.5), ("conflict", -4.5),
  ("shock", -4.5), ("crisis", -4.5), ("implosion", -4.5),
  ("bloodbath", -4.5), ("freeze", -4.4), ("shutdown", -4.4),
  ("downgrade", -4.3), ("seizure", -4.3), ("fraud", -4.2),
  ("scandal", -4.2), ("lawsuit", -4.2), ("probe", -4.0),
  ("recession", -4.0), ("stagflation", -4.0), ("deflation", -3.8),
  ("inflation", -3.5), ("layoffs", -3.5), ("jobless", -3.5),
  ("selloff", -3.5), ("decline", -3.5), ("slump", -3.5), ("worst", -4.0),
  ("loss", -3.5), ("weak", -3.3), ("slowdown", -3.3),
  ("shortage", -3.2), ("cut", -3.2), ("tightening", -3.2),
  ("ratehike", -3.0), ("hike", -3.0), ("tariffs", -3.0),
  ("deficit", -3.0), ("debt", -3.0), ("uncertainty", -3.0),
  ("volatility", -3.0), ("risk", -2.8), ("tension", -2.8),
  ("strike", -2.8), ("protest", -2.8), ("drop", -2.7),
  ("dip", -2.5), ("downturn", -3.0),
  ("concern", -2.5), ("pressure", -2.5), ("fear", -2.5),
  ("bearish", -2.5), ("correction", -2.5), ("fall", -2.5),
  ("miss", -2.3), ("underperform", -2.3), ("cutback", -2.3),
  ("slower", -2.2), ("cooling", -2.0), ("downtime", -2.0),
  ("oversupply", -2.0), ("oversold", -2.0),
  ("volatile", -2.0), ("exposed", -1.8),
  ("fragile", -1.8), ("cautious", -1.5),
  ("steady", 2.5), ("stable", 2.5), ("progress", 2.5), ("recover", 2.5),
  ("hire", 2.3), ("jobs", 2.3), ("productive", 2.2), ("efficient", 2.2),
  ("opportunity", 2.2), ("demand", 2.2), ("healthy", 2.0), ("solid", 2.0),
  ("encourage", 2.0), ("boost", 2.0), ("uptrend", 2.0), ("outperform", 2.0),
  ("gain", 3.5), ("rise", 3.5), ("climb", 3.5),
  ("optimistic", 3.5), ("confidence", 3.5),
  ("improve", 3.3), ("improvement", 3.3),
  ("resilient", 3.3), ("stability", 3.3),
  ("support", 3.2), ("backed", 3.2),
  ("innovation", 3.2), ("expand", 3.2),
  ("acquisition", 3.2), ("merger", 3.2),
  ("investment", 3.2), ("inflow", 3.2),
  ("bullish", 3.0), ("accelerate", 3.0),
  ("momentum", 3.0), ("robust", 3.0),
  ("boom", 5.0), ("recordhigh", 5.0), ("alltimehigh", 5.0),
  ("breakthrough", 4.8), ("surge", 4.8), ("soar", 4.8),
  ("explode", 4.7), ("skyrocket", 4.7),
  ("stimulus", 4.5), ("bailout", 4.5),
  ("deal", 4.5), ("agreement", 4.5),
  ("victory", 4.5), ("approval", 4.5),
  ("upgrade", 4.3), ("beat", 4.3),
  ("windfall", 4.3), ("profit", 4.2),
  ("strong", 4.0), ("growth", 4.0),
  ("recovery", 4.0), ("expansion", 4.0),
  ("rally", 4.0), ("bullrun", 4.0),
  ("falls", -2.5), ("fell", -2.5), ("drops", -2.5), ("dropped", -2.5),
  ("declines", -2.5), ("declined", -2.5), ("slip", -2.3), ("slips", -2.3),
  ("slipped", -2.3), ("edge lower", -2.0), ("weaken", -2.5),
  ("weakens", -2.5), ("weakened", -2.5), ("lower", -1.8),
  ("under pressure", -2.5), ("hit", -2.0), ("drag", -2.0),
  ("weigh", -2.0), ("weighs", -2.0), ("weighed", -2.0),
  ("rises", 2.5), ("rose", 2.5), ("gains", 2.5), ("gained", 2.5),
  ("advance", 2.5), ("advances", 2.5), ("advanced", 2.5),
  ("climbs", 2.5), ("climbed", 2.5), ("edge higher", 2.0),
  ("firm", 2.0), ("firms", 2.0), ("firmed", 2.0),
  ("strengthen", 2.5), ("strengthens", 2.5), ("strengthened", 2.5),
  ("higher", 1.8), ("boosted", 2.5), ("lifted", 2.5),
  ("concerns", -2.0), ("fears", -2.5), ("worries", -2.3),
  ("uncertain", -2.0), ("headwinds", -2.5), ("risk-off", -3.0),
  ("caution", -1.5), ("warns", -2.0), ("warning", -2.0),
  ("hopes", 2.0), ("optimism", 2.5), ("supportive", 2.0),
  ("tailwind", 2.5), ("upbeat", 2.5), ("improves", 2.5), ("signals", 1.5),
  ("unemployment", -2.5), ("employment", 2.5), ("payrolls", 2.0),
  ("surplus", 3.5), ("easing", 2.5), ("qe", 3.0), ("qt", -3.0),
  ("ratecut", 3.5), ("ratecuts", 3.5), ("ratehikes", -3.5),
  ("capitalraise", 2.5), ("capitalshortfall", -4.0),
  ("write-down", -4.2), ("write-off", -4.2), ("impairment", -3.8),
  ("provision", -2.0), ("solvent", 3.5), ("insolvent", -5.0),
  ("liquiditycrunch", -4.8), ("margin call", -4.5),
  ("creditcrunch", -4.5), ("creditfreeze", -4.7),
  ("spreadwidening", -3.8), ("spreadtightening", 3.2),
  ("illiquid", -3.5), ("bankrun", -5.0), ("depositflight", -4.5),
  ("contagionrisk", -4.8), ("systemicrisk", -4.8),
  ("ceasefire", 4.0), ("escalation", -4.0), ("blockade", -4.0),
  ("embargo", -4.0), ("tensions", -3.0), ("standoff", -3.0),
  ("hawkish", -3.5), ("dovish", 3.5), ("intervention", 2.0),
  ("stabilization", 2.5), ("independence", 2.5),
  ("capitalflight", -4.0), ("devaluation", -4.0),
  ("depreciation", -2.5), ("appreciation", 2.5), ("currencycrisis", -5.0),
  ("opeccut", 3.5), ("opecincrease", -3.0),
  ("productioncut", 3.0), ("productionhalt", -4.0),
  ("demanddestruction", -4.5), ("glut", -3.5),
  ("above expectations", 3.0), ("softlanding", 4.5), ("hardlanding", -4.8),
  ("disinflation", 3.5), ("stickyinflation", -3.8),
  ("overheating", -3.5), ("contraction", -4.0), ("expanding", 3.0),
  ("derisking", -3.5), ("deleveraging", -4.0),
  ("shortsqueeze", 4.5), ("capitulation", -4.5),
  ("breakout", 3.8), ("breakdown", -3.8),
  ("overvalued", -2.5), ("undervalued", 2.5),
  ("rebound", 1.3), ("rebounded", 1.3), ("uptick", 1.2),
  ("pullback", -1.3), ("stalled", -1.2), ("choppy", -1.2),
  ("fragility", -1.3), ("weakness", -1.5), ("dragged", -1.5),
  ("retreat", -1.3), ("retreated", -1.3),
  ("amid", -0.5), ("despite", 0.2)]

/-- Table `KEYWORD_WEIGHTS` of `scoring.py`, in declaration order. -/
def KEYWORD_WEIGHTS : List (String × ℚ) := [
  ("federal reserve", 3.0), ("fed", 2.0), ("rate cut", 3.5), ("rate hike", 3.5),
  ("interest rate", 2.5), ("fomc", 3.0), ("jerome powell", 2.5), ("ecb", 2.5),
  ("quantitative easing", 2.5), ("yield curve", 2.0), ("boj", 2.0),
  ("bank of england", 2.0), ("inflation", 2.0), ("cpi", 2.0), ("gdp", 1.5),
  ("stock market", 2.5), ("equities", 2.0), ("s&p 500", 2.5), ("nasdaq", 2.0),
  ("market crash", 4.0), ("selloff", 3.0), ("bear market", 3.5),
  ("vix", 2.5), ("volatility", 2.0), ("earnings", 2.0),
  ("war", 4.0), ("invasion", 4.5), ("conflict", 3.0), ("military", 2.5),
  ("sanctions", 3.5), ("nato", 2.5), ("ukraine", 3.0), ("russia", 2.5),
  ("china", 2.0), ("taiwan", 3.5), ("middle east", 2.5), ("oil", 2.5),
  ("energy crisis", 3.0), ("geopolitical", 2.5),
  ("crisis", 3.5), ("default", 3.5), ("bankruptcy", 3.0), ("collapse", 4.0),
  ("recession", 3.0), ("stagflation", 3.0), ("bank run", 4.0),
  ("contagion", 3.5), ("systemic risk", 3.5), ("debt ceiling", 3.0),
  ("tariff", 2.5), ("trade war", 3.0), ("treasury", 2.0), ("bond", 1.5),
  ("gold", 1.5), ("bitcoin", 1.5), ("crypto", 1.5)]

/-- Table `CRITICAL_THEMES` of `scoring.py`, in declaration order. -/
def CRITICAL_THEMES : List (String × List String) := [
  ("war_conflict",       ["war", "invasion", "military strike", "airstrike", "nuclear"]),
  ("market_crash",       ["market crash", "circuit breaker", "trading halt", "black monday"]),
  ("monetary_emergency", ["emergency rate cut", "emergency meeting", "fed emergency"]),
  ("sovereign_default",  ["default", "debt restructuring", "imf bailout"]),
  ("banking_crisis",     ["bank run", "bank failure", "fdic", "systemic collapse"]),
  ("sanctions_major",    ["sanctions", "export controls", "asset freeze", "swift ban"]),
  ("geopolitical_shock", ["taiwan strait", "nuclear threat", "escalation", "invasion"]),
  ("recession",          ["recession", "gdp contraction", "economic downturn"]),
  ("inflation",          ["inflation surge", "cpi spike", "hyperinflation"]),
  ("oil_energy",         ["oil price", "crude oil", "opec", "energy crisis"]),
  ("market_volatility",  ["vix spike", "volatility surge", "flash crash", "market selloff"]),
  ("central_bank",       ["rate decision", "central bank", "fomc meeting", "ecb decision"])]

def BM25_K1 : ℚ := 1.5

def BM25_B : ℚ := 0.75

def AVG_DOC_LENGTH : ℚ := 500

/-- The `raw` lexicon sum of `_sentiment_score`: preprocess the blob
`(title + " ") * 3 + " " + content`, tokenize, and add
`SENTIMENT_DICT[token] * count` for every distinct token found in the
lexicon (`Counter` iteration = sum over distinct tokens). -/
def rawSentimentScore (title content : String) : ℚ :=
  let combined := preprocess ((title ++ " ") ++ (title ++ " ") ++ (title ++ " ") ++ " " ++ content)
  let tokens := tokenize combined
  (tokens.dedup.map (fun t =>
    match SENTIMENT_DICT.lookup t with
    | some w => w * (tokens.count t : ℚ)
    | none => 0)).sum

/-- Function `_sentiment_score` of `scoring.py`: signed-sqrt-compressed sentiment and
its label (the label is decided on the raw sum). -/
noncomputable def sentiment_score (title content : String) : ℝ × String :=
  let raw := rawSentimentScore title content
  let transformed : ℝ :=
    if 0 < raw then Real.sqrt ((raw : ℝ))
    else if raw < 0 then -Real.sqrt |(raw : ℝ)| else 0
  let label : String :=
    if 100 ≤ raw then "Extreme Positive"
    else if 10 ≤ raw then "Positive"
    else if raw ≤ -100 then "Extreme Negative"
    else if raw ≤ -10 then "Negative"
    else "Neutral"
  (transformed, label)

/-- Python `str.lower()` (ASCII case folding, character by character). -/
def strLower (s : String) : String :=
  ⟨s.toList.map Char.toLower⟩

/-- The blob used by `_relevance_score`: `(title.lower() + " ") * 3 + content.lower()`. -/
def titleTripledLower (title content : String) : String :=
  (strLower title ++ " ") ++ (strLower title ++ " ") ++ (strLower title ++ " ") ++
    strLower content

/-- The BM25 term-frequency saturation factor of `_relevance_score`. -/
def tfNorm (count : ℕ) (doc_len : ℚ) : ℚ :=
  ((count : ℚ) * (BM25_K1 + 1)) /
    ((count : ℚ) + BM25_K1 * (1 - BM25_B + BM25_B * doc_len / AVG_DOC_LENGTH))

/-- The keyword loop of `_relevance_score`: accumulate `tf_norm * weight` and
the matched phrases over `KEYWORD_WEIGHTS` in declaration order. -/
def keywordFold (combined : String) : ℚ × List String :=
  let doc_len : ℚ := ((pySplit combined.toList).length : ℚ)
  KEYWORD_WEIGHTS.foldl
    (fun (acc : ℚ × List String) pw =>
      let count := countOcc pw.1.toList combined.toList
      if 0 < count then (acc.1 + tfNorm count doc_len * pw.2, acc.2 ++ [pw.1])
      else acc)
    (0, [])

/-- The theme loop of `_relevance_score`: for each theme, on the first trigger
phrase found as a substring, add `5.0` to the score and record the theme,
then stop checking that theme's remaining phrases. -/
def themeFold (combined : String) (init : ℚ) : ℚ × List String :=
  CRITICAL_THEMES.foldl
    (fun (acc : ℚ × List String) tkw =>
      match tkw.2.find? (fun kw => substrB kw.toList combined.toList) with
      | some _ => (acc.1 + 5.0, if tkw.1 ∈ acc.2 then acc.2 else acc.2 ++ [tkw.1])
      | none => acc)
    (init, [])

/-- Function `_relevance_score` of `scoring.py`: returns
`(score, matched_themes, matched_keywords[:15])`. -/
def relevance_score (title content : String) : ℚ × List String × List String :=
  let combined := titleTripledLower title content
  let kw := keywordFold combined
  let th := themeFold combined kw.1
  (th.1, th.2, kw.2.take 15)

/-- Function `_normalize_to_100` of `scoring.py`: `(p5, max(p95, p5 + 0.001))` by
floor-indexing the sorted value list (`int(0.05*n) = n/20`,
`int(0.95*n) = 19*n/20` under exact arithmetic). -/
def normalize_to_100 {α : Type} [LinearOrderedField α] (values : List α) : α × α :=
  if values = [] then (0, 1)
  else
    let s := List.insertionSort (· ≤ ·) values
    let n := values.length
    let p5 := s.getD (max (n / 20) 0) 0
    let p95 := s.getD (min (19 * n / 20) (n - 1)) 0
    (p5, max p95 (p5 + 1 / 1000))

/-- The per-article body of the loop of `normalize_scores`, given the
`(p5, p95)` pair: `round(max(0.0, min(100.0, normalized)), 2)` where
`normalized = (val - p5) / rng * 100 if rng > 0 else 50.0`. -/
def normOne {α : Type} [LinearOrderedField α] [FloorRing α] (pq : α × α) (val : α) : α :=
  let rng := pq.2 - pq.1
  round2 (max 0 (min 100 (if 0 < rng then (val - pq.1) / rng * 100 else 50)))

/-- Function `normalize_scores` of `scoring.py`, on the list of `score_combined`
values (the source writes the result back onto each article in order). -/
def normalize_scores {α : Type} [LinearOrderedField α] [FloorRing α]
    (articles : List α) : List α :=
  articles.map (normOne (normalize_to_100 articles))

/-- Function `compute_dynamic_threshold` of `scoring.py`, on the list of
`score_normalized` values: `round(min(mean + 1.5*std, 95.0), 2)` with the
population standard deviation, `75.0` on the empty corpus. -/
noncomputable def compute_dynamic_threshold (scores : List ℝ) : ℝ :=
  if scores = [] then 75.0
  else
    let n : ℝ := (scores.length : ℝ)
    let mean := scores.sum / n
    let std := Real.sqrt ((scores.map (fun s => (s - mean) ^ 2)).sum / n)
    round2 (min (mean + 1.5 * std) 95.0)

/-- An input article as consumed by `score_articles` and `deduplicate`
(absent fields default to the empty string, as `dict.get` does). -/
structure Article where
  title : String := ""
  content : String := ""
  link : String := ""
deriving DecidableEq

/-- An article after `score_articles` has populated the score fields. -/
structure ScoredArticle where
  title : String
  content : String
  score_sentiment : ℝ
  sentiment_label : String
  score_relevance : ℚ
  themes : List String
  matched_keywords : List String
  score_combined : ℝ
  score : ℝ
  score_normalized : ℝ
  alert_threshold : ℝ
  is_relevant : Prop

noncomputable instance : Inhabited ScoredArticle :=
  ⟨⟨"", "", 0, "", 0, [], [], 0, 0, 0, 0, False⟩⟩

/-- The per-article body of the first loop of `score_articles`: sentiment,
relevance, themes, keywords, and the combined score
`round(0.4 * abs(sent_score) + 0.6 * rel_score, 4)`. -/
noncomputable def scoreOne (a : Article) : ScoredArticle :=
  let sent := sentiment_score a.title a.content
  let rel := relevance_score a.title a.content
  let combined := round4 (0.4 * |sent.1| + 0.6 * ((rel.1 : ℝ)))
  { title := a.title, content := a.content,
    score_sentiment := round4 sent.1, sentiment_label := sent.2,
    score_relevance := round4 rel.1,
    themes := rel.2.1, matched_keywords := rel.2.2,
    score_combined := combined, score := combined,
    score_normalized := 0, alert_threshold := 0, is_relevant := False }

/-- Function `score_articles` of `scoring.py`: score each article of `articles`,
normalize over those scores, compute the adaptive threshold, and set
`is_relevant` / `alert_threshold`.  The `existing_corpus` parameter is
accepted and never read, exactly as in the source. -/
noncomputable def score_articles (articles : List Article)
    (existing_corpus : List Article) : List ScoredArticle :=
  let scored := articles.map scoreOne
  let normedVals := normalize_scores (scored.map (fun a => a.score_combined))
  let scored2 := scored.zipWith (fun a v => { a with score_normalized := v }) normedVals
  let threshold := compute_dynamic_threshold (scored2.map (fun a => a.score_normalized))
  scored2.map (fun a =>
    { a with alert_threshold := threshold,
             is_relevant := (a.score_normalized ≥ threshold ∨ 0 < a.themes.length) })

/-- Link normalization `link.rstrip("/").lower()` as used by `storage.py`. -/
def normLink (link : String) : String :=
  strLower ⟨(link.toList.reverse.dropWhile (fun c => c = '/')).reverse⟩

/-- The merge loop of `deduplicate`: keep a new article only when its
normalized link is non-empty and unseen, adding kept links to `seen`. -/
def dedupLoop (seen : List String) : List Article → List Article
  | [] => []
  | a :: rest =>
    let link := normLink a.link
    if link = "" ∨ link ∈ seen then dedupLoop seen rest
    else a :: dedupLoop (link :: seen) rest

/-- Function `deduplicate` of `storage.py`: append the new articles that survive the
seen-links check to the existing list. -/
def deduplicate (existing : List Article) (new_articles : List Article) : List Article :=
  existing ++ dedupLoop (existing.map (fun a => normLink a.link)) new_articles

/-- The corpus mean as §4.7 of the spec words it. -/
noncomputable def specMean (scores : List ℝ) : ℝ :=
  scores.sum / (scores.length : ℝ)

/-- The population standard deviation (divide by `n`, not `n - 1`) as §4.7
of the spec words it. -/
noncomputable def specPopStd (scores : List ℝ) : ℝ :=
  Real.sqrt ((scores.map (fun s => (s - specMean scores) ^ 2)).sum / (scores.length : ℝ))

/-- The adaptive threshold exactly as the claim words it:
`min(mean + 1.5 * stddev, 95.0)`, with no rounding. -/
noncomputable def specThreshold (scores : List ℝ) : ℝ :=
  min (specMean scores + 1.5 * specPopStd scores) 95.0

/-- The sentiment label as the claim words it, on half-open intervals of
the raw score. -/
def claimLabel (raw : ℚ) : String :=
  if 100 ≤ raw then "Extreme Positive"
  else if 10 ≤ raw ∧ raw < 100 then "Positive"
  else if -10 < raw ∧ raw < 10 then "Neutral"
  else if -100 < raw ∧ raw ≤ -10 then "Negative"
  else "Extreme Negative"

/-- The BM25 keyword component of `_relevance_score` (the first loop only,
no theme boost). -/
def bm25Score (title content : String) : ℚ :=
  (keywordFold (titleTripledLower title content)).1

/-- The number of critical themes with at least one trigger phrase found in
the article's blob. -/
def themeHitCount (title content : String) : ℕ :=
  (CRITICAL_THEMES.filter (fun tkw =>
    tkw.2.any (fun kw => substrB kw.toList (titleTripledLower title content).toList))).length

/-- The combined scores of the scored batch, before normalization. -/
noncomputable def combinedScores (arts : List Article) : List ℝ :=
  (arts.map scoreOne).map (fun a => a.score_combined)

/-- The run's adaptive threshold exactly as `score_articles` computes it. -/
noncomputable def runThreshold (arts : List Article) : ℝ :=
  compute_dynamic_threshold (normalize_scores (combinedScores arts))

/-- The end state `score_articles` leaves on the article `a` of the batch
`arts`. -/
noncomputable def finalizeOne (arts : List Article) (a : Article) : ScoredArticle :=
  let s := scoreOne a
  let v := normOne (normalize_to_100 (combinedScores arts)) s.score_combined
  { s with score_normalized := v, alert_threshold := runThreshold arts,
           is_relevant := (v ≥ runThreshold arts ∨ 0 < s.themes.length) }

/-- The single output article of the run on the one-article batch
`[{"title": "fdic"}]` (with an empty existing corpus). -/
noncomputable def fdicOut : ScoredArticle :=
  (score_articles [{ title := "fdic" }] []).getD 0 default

/-! ## Helper lemmas -/

section Helpers

variable {α : Type} [LinearOrderedField α] [FloorRing α]

theorem round_mono {x y : α} (h : x ≤ y) : round x ≤ round y := by
  rw [round_eq, round_eq]
  exact Int.floor_le_floor (by linarith)

theorem round2_mono {x y : α} (h : x ≤ y) : round2 x ≤ round2 y := by
  unfold round2
  have : round (100 * x) ≤ round (100 * y) := round_mono (by linarith)
  have h100 : (0 : α) < 100 := by norm_num
  exact div_le_div_of_nonneg_right (by exact_mod_cast this) h100.le

theorem round2_intCast (n : ℤ) : round2 ((n : α)) = (n : α) := by
  unfold round2
  rw [show (100 : α) * (n : α) = ((100 * n : ℤ) : α) by push_cast; ring, round_intCast]
  push_cast
  ring

theorem round2_zero : round2 (0 : α) = 0 := by
  simpa using round2_intCast (α := α) 0

omit [FloorRing α] in
/-- The epsilon guard of `_normalize_to_100` makes the percentile range
strictly positive on every corpus. -/
theorem normalize_to_100_range_pos (values : List α) :
    0 < (normalize_to_100 values).2 - (normalize_to_100 values).1 := by
  unfold normalize_to_100
  by_cases h : values = []
  · simp [h]
  · simp only [h, if_neg, if_false]
    have : (List.insertionSort (· ≤ ·) values).getD (max (values.length / 20) 0) 0 + 1 / 1000 ≤
        max ((List.insertionSort (· ≤ ·) values).getD
          (min (19 * values.length / 20) (values.length - 1)) 0)
          ((List.insertionSort (· ≤ ·) values).getD (max (values.length / 20) 0) 0 + 1 / 1000) :=
      le_max_right _ _
    have h1000 : (0 : α) < 1 / 1000 := by norm_num
    linarith

/-- Lemma: `normOne` is monotone in the value being normalized. -/
theorem normOne_mono {pq : α × α} (hr : 0 < pq.2 - pq.1) {x y : α} (h : x ≤ y) :
    normOne pq x ≤ normOne pq y := by
  unfold normOne
  simp only [if_pos hr]
  apply round2_mono
  have hdiv : (x - pq.1) / (pq.2 - pq.1) * 100 ≤ (y - pq.1) / (pq.2 - pq.1) * 100 := by
    have := div_le_div_of_nonneg_right (sub_le_sub_right h pq.1) hr.le
    nlinarith [this]
  exact max_le_max (le_refl 0) (min_le_min (le_refl 100) hdiv)

theorem normOne_bounds (pq : α × α) (val : α) :
    0 ≤ normOne pq val ∧ normOne pq val ≤ 100 := by
  unfold normOne
  set z := if 0 < pq.2 - pq.1 then (val - pq.1) / (pq.2 - pq.1) * 100 else (50 : α) with hz
  constructor
  · have h0 : (0 : α) ≤ max 0 (min 100 z) := le_max_left _ _
    calc (0 : α) = round2 (0 : α) := (round2_zero).symm
      _ ≤ round2 (max 0 (min 100 z)) := round2_mono h0
  · have h100 : max 0 (min 100 z) ≤ 100 := by
      apply max_le (by norm_num)
      exact min_le_left _ _
    calc round2 (max 0 (min 100 z)) ≤ round2 (100 : α) := round2_mono h100
      _ = 100 := by simpa using round2_intCast (α := α) 100

theorem normalize_scores_length (vals : List α) :
    (normalize_scores vals).length = vals.length := by
  simp [normalize_scores]

theorem getD_mem_of_pos {β : Type} [Inhabited β] {l : List β} (h : 0 < l.length) :
    l.getD 0 default ∈ l := by
  have h0 : l[0]? = some l[0] := List.getElem?_eq_getElem h
  simp [List.getD_eq_getElem?_getD, h0]

theorem getD_eq_getElem' {β : Type} {l : List β} {n : ℕ} (d : β) (h : n < l.length) :
    l.getD n d = l[n] := by
  simp [List.getD_eq_getElem?_getD, List.getElem?_eq_getElem h]

/-- On a non-empty corpus whose combined scores are all equal, the
percentile range collapses to the `0.001` epsilon and every normalized
score is `0`. -/
theorem normalize_scores_of_const {α : Type} [LinearOrderedField α] [FloorRing α]
    (vals : List α) (c : α) (hne : vals ≠ []) (hall : ∀ v ∈ vals, v = c) :
    0 < (normalize_to_100 vals).2 - (normalize_to_100 vals).1 ∧
      ∀ x ∈ normalize_scores vals, x = 0 := by
  refine ⟨normalize_to_100_range_pos vals, ?_⟩
  have hsortmem : ∀ y ∈ List.insertionSort (· ≤ ·) vals, y = c := fun y hy =>
    hall y ((List.perm_insertionSort _ vals).mem_iff.mp hy)
  have hslen : (List.insertionSort (· ≤ ·) vals).length = vals.length :=
    (List.perm_insertionSort _ vals).length_eq
  have hlen : 0 < vals.length := List.length_pos.mpr hne
  have hp5 : (List.insertionSort (· ≤ ·) vals).getD (max (vals.length / 20) 0) 0 = c := by
    have hidx : max (vals.length / 20) 0 < (List.insertionSort (· ≤ ·) vals).length := by
      rw [hslen, Nat.max_eq_left (Nat.zero_le _)]
      exact Nat.div_lt_self hlen (by norm_num)
    rw [getD_eq_getElem' _ hidx]
    exact hsortmem _ (List.getElem_mem hidx)
  have hp95 : (List.insertionSort (· ≤ ·) vals).getD
      (min (19 * vals.length / 20) (vals.length - 1)) 0 = c := by
    have hidx : min (19 * vals.length / 20) (vals.length - 1) <
        (List.insertionSort (· ≤ ·) vals).length := by
      rw [hslen]
      exact Nat.lt_of_le_of_lt (Nat.min_le_right _ _) (Nat.sub_lt hlen (by norm_num))
    rw [getD_eq_getElem' _ hidx]
    exact hsortmem _ (List.getElem_mem hidx)
  have hpq : normalize_to_100 vals = (c, c + 1 / 1000) := by
    simp only [normalize_to_100, if_neg hne]
    rw [hp5, hp95]
    have : max c (c + 1 / 1000) = c + 1 / 1000 := max_eq_right (by norm_num)
    rw [this]
  intro x hx
  rw [normalize_scores, hpq] at hx
  obtain ⟨v, hv, rfl⟩ := List.mem_map.mp hx
  have hvc := hall v hv
  subst hvc
  unfold normOne
  have hr : ((v, v + 1 / 1000) : α × α).2 - ((v, v + 1 / 1000) : α × α).1 = 1 / 1000 := by
    simp
  simp only [hr]
  rw [if_pos (by norm_num : (0 : α) < 1 / 1000)]
  have h0 : (v - ((v, v + 1 / 1000) : α × α).1) = 0 := by simp
  rw [h0]
  norm_num [round2_zero]

end Helpers

/-! ## Claim theorems -/

/-- C1: `score_articles(new_articles, existing_corpus)` does NOT renormalize
the existing corpus: the `existing_corpus` parameter is never read (the
result is the same whatever is passed there), and the returned list scores
and normalizes exactly the `articles` batch, so the percentile anchors come
from the new batch alone.  This contradicts the claim (and the source's own
comments); recorded as a code bug. -/
theorem score_articles_ignores_existing_corpus (new c1 c2 : List Article) :
    score_articles new c1 = score_articles new c2 ∧
      (score_articles new c1).length = new.length := by
  refine ⟨rfl, ?_⟩
  simp [score_articles, normalize_scores, List.length_zipWith]

/-- C3 (counterexample): on the all-equal corpus `[7, 7]` the source does
NOT set every normalized score to `50.0` (it sets them to `0.0`). -/
theorem normalize_scores_all_equal_cx :
    ¬ (∀ x ∈ normalize_scores ([7, 7] : List ℚ), x = 50) := by
  intro h
  have hzero := (normalize_scores_of_const ([7, 7] : List ℚ) 7 (by simp)
    (by intro v hv; simp at hv; exact hv)).2
  have hpos : 0 < (normalize_scores ([7, 7] : List ℚ)).length := by
    rw [normalize_scores_length]; decide
  have h1 := h _ (getD_mem_of_pos hpos)
  have h2 := hzero _ (getD_mem_of_pos hpos)
  rw [h2] at h1
  norm_num at h1

/-- C3 (amended): for every non-empty corpus whose `score_combined` values
are all equal, `normalize_scores` performs no division by zero — the
epsilon guard keeps the percentile range strictly positive (`0.001`), so
the `50.0` fallback branch is unreachable — and every article's
`score_normalized` is set to `0.0`, not `50.0`. -/
theorem normalize_scores_all_equal {α : Type} [LinearOrderedField α] [FloorRing α]
    (vals : List α) (c : α) (hne : vals ≠ []) (hall : ∀ v ∈ vals, v = c) :
    0 < (normalize_to_100 vals).2 - (normalize_to_100 vals).1 ∧
      ∀ x ∈ normalize_scores vals, x = 0 :=
  normalize_scores_of_const vals c hne hall

/-- C3 witness: the theorem applied to the concrete all-equal corpus
`[7, 7]`. -/
theorem normalize_scores_all_equal_witness :
    (([7, 7] : List ℚ) ≠ [] ∧ ∀ v ∈ ([7, 7] : List ℚ), v = 7) ∧
      (0 < (normalize_to_100 ([7, 7] : List ℚ)).2 - (normalize_to_100 ([7, 7] : List ℚ)).1 ∧
        ∀ x ∈ normalize_scores ([7, 7] : List ℚ), x = 0) :=
  have hall : ∀ v ∈ ([7, 7] : List ℚ), v = 7 := by
    intro v hv; simp at hv; exact hv
  ⟨⟨by simp, hall⟩, normalize_scores_all_equal [7, 7] 7 (by simp) hall⟩

/-- C4: for every corpus, every value produced by `normalize_scores` lies in
`[0, 100]`, whatever the magnitude or sign of the combined scores. -/
theorem normalize_scores_bounded {α : Type} [LinearOrderedField α] [FloorRing α]
    (vals : List α) : ∀ v ∈ normalize_scores vals, 0 ≤ v ∧ v ≤ 100 := by
  intro v hv
  rw [normalize_scores] at hv
  obtain ⟨x, _, rfl⟩ := List.mem_map.mp hv
  exact normOne_bounds _ _

/-- C4 witness: the theorem applied to the first normalized value of the
concrete corpus `[7]`. -/
theorem normalize_scores_bounded_witness :
    (normalize_scores ([7] : List ℚ)).getD 0 default ∈ normalize_scores ([7] : List ℚ) ∧
      (0 ≤ (normalize_scores ([7] : List ℚ)).getD 0 default ∧
        (normalize_scores ([7] : List ℚ)).getD 0 default ≤ 100) :=
  have hpos : 0 < (normalize_scores ([7] : List ℚ)).length := by
    rw [normalize_scores_length]; decide
  ⟨getD_mem_of_pos hpos, normalize_scores_bounded [7] _ (getD_mem_of_pos hpos)⟩

/-- C8: normalization is order-preserving inside one batch — if article `i`
has a strictly larger `score_combined` than article `j`, its normalized
score is at least as large (clamping and 2-decimal rounding included). -/
theorem normalize_scores_monotone {α : Type} [LinearOrderedField α] [FloorRing α]
    (vals : List α) (i j : ℕ) (hi : i < vals.length) (hj : j < vals.length)
    (hgt : vals.getD j 0 < vals.getD i 0) :
    (normalize_scores vals).getD j 0 ≤ (normalize_scores vals).getD i 0 := by
  have hrng := normalize_to_100_range_pos vals
  have hi' : i < (normalize_scores vals).length := by rw [normalize_scores_length]; exact hi
  have hj' : j < (normalize_scores vals).length := by rw [normalize_scores_length]; exact hj
  rw [getD_eq_getElem' _ hi', getD_eq_getElem' _ hj']
  rw [getD_eq_getElem' _ hi, getD_eq_getElem' _ hj] at hgt
  simp only [normalize_scores, List.getElem_map]
  exact normOne_mono hrng hgt.le

/-- C8 witness: in the batch `[1, 2]`, article 1 has the larger combined
score and its normalized score is at least article 0's. -/
theorem normalize_scores_monotone_witness :
    ((1 : ℕ) < ([1, 2] : List ℚ).length ∧ (0 : ℕ) < ([1, 2] : List ℚ).length ∧
      ([1, 2] : List ℚ).getD 0 0 < ([1, 2] : List ℚ).getD 1 0) ∧
    (normalize_scores ([1, 2] : List ℚ)).getD 0 0 ≤
      (normalize_scores ([1, 2] : List ℚ)).getD 1 0 :=
  ⟨⟨by decide, by decide, by decide⟩,
    normalize_scores_monotone [1, 2] 1 0 (by decide) (by decide) (by decide)⟩

/-- Evaluation rule for `round2` at a concrete value. -/
theorem round2_eval {α : Type} [LinearOrderedField α] [FloorRing α] (x : α) (n : ℤ)
    (h1 : (n : α) ≤ 100 * x + 1 / 2) (h2 : 100 * x + 1 / 2 < n + 1) :
    round2 x = (n : α) / 100 := by
  unfold round2
  have : round (100 * x) = n := by
    rw [round_eq]
    exact Int.floor_eq_iff.mpr ⟨h1, by linarith⟩
  rw [this]

/-- C5 (counterexample): on the corpus `[0, 0.03]` the code returns `0.04`
(the 2-decimal rounding of `0.0375`), while the claim's formula
`min(mean + 1.5*stddev, 95.0)` gives `0.0375`. -/
theorem compute_dynamic_threshold_cx :
    compute_dynamic_threshold [0, 0.03] = 0.04 ∧
      specThreshold [0, 0.03] = 0.0375 ∧
      compute_dynamic_threshold [0, 0.03] ≠ specThreshold [0, 0.03] := by
  have hmean : specMean [0, 0.03] = 0.015 := by
    simp [specMean]
    norm_num
  have hstd : specPopStd [0, 0.03] = 0.015 := by
    rw [specPopStd, hmean]
    rw [show ((([0, 0.03] : List ℝ).map (fun s => (s - 0.015) ^ 2)).sum /
        (([0, 0.03] : List ℝ).length : ℝ)) = (0.015 : ℝ) ^ 2 by simp; norm_num]
    exact Real.sqrt_sq (by norm_num)
  have hspec : specThreshold [0, 0.03] = 0.0375 := by
    rw [specThreshold, hmean, hstd]
    norm_num
  have hcode : compute_dynamic_threshold [0, 0.03] = 0.04 := by
    have hne : ([0, 0.03] : List ℝ) ≠ [] := by simp
    have hbody : compute_dynamic_threshold [0, 0.03] = round2 (specThreshold [0, 0.03]) := by
      simp only [compute_dynamic_threshold, if_neg hne, specThreshold, specPopStd, specMean]
    rw [hbody, hspec, round2_eval (0.0375 : ℝ) 4 (by norm_num) (by norm_num)]
    norm_num
  exact ⟨hcode, hspec, by rw [hcode, hspec]; norm_num⟩

/-- C5 (amended): the adaptive threshold is the **2-decimal rounding** of
`min(mean + 1.5 * population-stddev, 95.0)`; it therefore never exceeds
`95.0`, and the empty corpus yields exactly `75.0`. -/
theorem compute_dynamic_threshold_spec (scores : List ℝ) :
    compute_dynamic_threshold scores =
      (if scores = [] then (75 : ℝ) else round2 (specThreshold scores)) ∧
    compute_dynamic_threshold scores ≤ 95 := by
  by_cases h : scores = []
  · refine ⟨by simp [compute_dynamic_threshold, h]; norm_num, ?_⟩
    rw [compute_dynamic_threshold, if_pos h]
    norm_num
  · have heq : compute_dynamic_threshold scores = round2 (specThreshold scores) := by
      simp only [compute_dynamic_threshold, if_neg h, specThreshold, specPopStd, specMean]
    refine ⟨by rw [heq, if_neg h], ?_⟩
    rw [heq]
    have hle : specThreshold scores ≤ (95.0 : ℝ) := min_le_right _ _
    calc round2 (specThreshold scores) ≤ round2 ((95 : ℝ)) :=
          round2_mono (by norm_num at hle ⊢; exact hle)
      _ = 95 := by simpa using round2_intCast (α := ℝ) 95

/-- The source's `elif` cascade assigns exactly the claim's labels. -/
theorem labelCascade_eq_claimLabel (raw : ℚ) :
    (if 100 ≤ raw then "Extreme Positive"
     else if 10 ≤ raw then "Positive"
     else if raw ≤ -100 then "Extreme Negative"
     else if raw ≤ -10 then "Negative"
     else "Neutral") = claimLabel raw := by
  unfold claimLabel
  by_cases h1 : 100 ≤ raw
  · rw [if_pos h1, if_pos h1]
  · rw [if_neg h1, if_neg h1]
    by_cases h2 : 10 ≤ raw
    · rw [if_pos h2, if_pos ⟨h2, not_le.mp h1⟩]
    · rw [if_neg h2, if_neg (show ¬(10 ≤ raw ∧ raw < 100) from fun hc => h2 hc.1)]
      by_cases h3 : raw ≤ -100
      · rw [if_pos h3,
          if_neg (fun hc : -10 < raw ∧ raw < 10 => absurd hc.1 (by linarith)),
          if_neg (fun hc : -100 < raw ∧ raw ≤ -10 => absurd hc.1 (by linarith))]
      · rw [if_neg h3]
        by_cases h4 : raw ≤ -10
        · rw [if_pos h4,
            if_neg (fun hc : -10 < raw ∧ raw < 10 => absurd hc.1 (by linarith)),
            if_pos ⟨not_le.mp h3, h4⟩]
        · rw [if_neg h4, if_pos ⟨not_le.mp h4, not_le.mp h2⟩]

/-- C7: the sentiment scorer returns the signed-square-root compression
`sign(raw) * sqrt(|raw|)` of the raw lexicon sum together with the label
decided on the raw value (not the transformed one), with the claim's
interval thresholds. -/
theorem sentiment_score_spec (title content : String) :
    sentiment_score title content =
      (Real.sign ((rawSentimentScore title content : ℝ)) *
         Real.sqrt |(rawSentimentScore title content : ℝ)|,
       claimLabel (rawSentimentScore title content)) := by
  simp only [sentiment_score]
  rw [Prod.mk.injEq]
  constructor
  · rcases lt_trichotomy (rawSentimentScore title content) 0 with hneg | hzero | hpos
    · rw [if_neg (by exact fun hc => absurd hc (by linarith)), if_pos hneg]
      have hcast : ((rawSentimentScore title content : ℝ)) < 0 := by exact_mod_cast hneg
      rw [Real.sign_of_neg hcast]
      ring
    · rw [hzero]
      norm_num
    · rw [if_pos hpos]
      have hcast : (0 : ℝ) < ((rawSentimentScore title content : ℝ)) := by exact_mod_cast hpos
      rw [Real.sign_of_pos hcast, abs_of_pos hcast, one_mul]
  · exact labelCascade_eq_claimLabel _

theorem round4_intCast {α : Type} [LinearOrderedField α] [FloorRing α] (n : ℤ) :
    round4 ((n : α)) = (n : α) := by
  unfold round4
  rw [show (10000 : α) * (n : α) = ((10000 * n : ℤ) : α) by push_cast; ring, round_intCast]
  push_cast
  ring

/-- Lemma: `score_articles` processes every article of the batch independently:
the whole pipeline is one `map` of `finalizeOne`. -/
theorem score_articles_eq_map (arts ex : List Article) :
    score_articles arts ex = arts.map (finalizeOne arts) := by
  have hz : ∀ (l : List ScoredArticle) (pq : ℝ × ℝ),
      l.zipWith (fun a v => { a with score_normalized := v })
        ((l.map (fun a => a.score_combined)).map (normOne pq))
        = l.map (fun a => { a with score_normalized := normOne pq a.score_combined }) := by
    intro l pq
    rw [List.map_map, List.zipWith_map_right, List.zipWith_same]
    rfl
  simp only [score_articles, normalize_scores, combinedScores, finalizeOne, runThreshold]
  rw [hz, List.map_map, List.map_map]
  simp only [List.map_map, Function.comp_def]
  refine List.map_congr_left fun a ha => ?_
  simp only [finalizeOne, runThreshold, combinedScores, normalize_scores, List.map_map,
    Function.comp_def]

theorem score_articles_length (arts ex : List Article) :
    (score_articles arts ex).length = arts.length := by
  rw [score_articles_eq_map]
  simp

/-- The score component of the theme loop adds exactly `5.0` per theme with
a matching trigger phrase, whatever the starting accumulator. -/
theorem themeFoldAux_fst (combined : String) (L : List (String × List String))
    (acc : ℚ × List String) :
    (L.foldl (fun acc tkw =>
      match tkw.2.find? (fun kw => substrB kw.toList combined.toList) with
      | some _ => (acc.1 + 5.0, if tkw.1 ∈ acc.2 then acc.2 else acc.2 ++ [tkw.1])
      | none => acc) acc).1 =
      acc.1 + 5 * ((L.countP (fun tkw =>
        tkw.2.any (fun kw => substrB kw.toList combined.toList))) : ℚ) := by
  induction L generalizing acc with
  | nil => simp
  | cons x rest ih =>
    rw [List.foldl_cons]
    rcases hfind : x.2.find? (fun kw => substrB kw.toList combined.toList) with _ | y
    · have hany : (x.2.any (fun kw => substrB kw.toList combined.toList)) = false := by
        rw [List.any_eq_false]
        intro kw hkw
        exact List.find?_eq_none.mp hfind kw hkw
      rw [hfind, ih, List.countP_cons]
      simp only [hany, Bool.false_eq_true, if_false, Nat.add_zero]
    · have hany : (x.2.any (fun kw => substrB kw.toList combined.toList)) = true :=
        List.any_eq_true.mpr ⟨y, List.mem_of_find?_eq_some hfind,
          (List.find?_eq_some.mp hfind).1⟩
      rw [hfind, ih, List.countP_cons]
      simp only [hany, if_true]
      push_cast
      ring

/-- The names component of the theme loop collects one (fresh) name per
matching theme, so its length counts the matching themes. -/
theorem themeFoldAux_names (combined : String) (L : List (String × List String))
    (acc : ℚ × List String)
    (hnodup : (L.map Prod.fst).Nodup) (hdisj : ∀ t ∈ L.map Prod.fst, t ∉ acc.2) :
    (L.foldl (fun acc tkw =>
      match tkw.2.find? (fun kw => substrB kw.toList combined.toList) with
      | some _ => (acc.1 + 5.0, if tkw.1 ∈ acc.2 then acc.2 else acc.2 ++ [tkw.1])
      | none => acc) acc).2.length =
      acc.2.length + L.countP (fun tkw =>
        tkw.2.any (fun kw => substrB kw.toList combined.toList)) := by
  induction L generalizing acc with
  | nil => simp
  | cons x rest ih =>
    rw [List.foldl_cons]
    have hxfresh : x.1 ∉ acc.2 := hdisj x.1 (by simp)
    have hnodup' : (rest.map Prod.fst).Nodup := by
      simpa using hnodup.of_cons
    rcases hfind : x.2.find? (fun kw => substrB kw.toList combined.toList) with _ | y
    · have hany : (x.2.any (fun kw => substrB kw.toList combined.toList)) = false := by
        rw [List.any_eq_false]
        intro kw hkw
        exact List.find?_eq_none.mp hfind kw hkw
      rw [hfind, ih acc hnodup' (fun t ht => hdisj t (by simp [ht])), List.countP_cons]
      simp only [hany, Bool.false_eq_true, if_false, Nat.add_zero]
    · have hany : (x.2.any (fun kw => substrB kw.toList combined.toList)) = true :=
        List.any_eq_true.mpr ⟨y, List.mem_of_find?_eq_some hfind,
          (List.find?_eq_some.mp hfind).1⟩
      rw [hfind, if_neg hxfresh]
      have hdisj' : ∀ t ∈ rest.map Prod.fst, t ∉ acc.2 ++ [x.1] := by
        intro t ht
        rw [List.mem_append]
        rintro (h | h)
        · exact hdisj t (by simp [ht]) h
        · simp at h
          rw [List.map_cons, List.nodup_cons] at hnodup
          exact hnodup.1 (h ▸ ht)
      rw [ih (acc.1 + 5.0, acc.2 ++ [x.1]) hnodup' hdisj', List.countP_cons]
      simp only [hany, if_true, List.length_append, List.length_cons, List.length_nil]
      omega

/-- Lemma: `_relevance_score` decomposed: the returned score is the BM25 keyword
score plus `5.0` per matched theme, and the returned theme list has one
entry per matched theme. -/
theorem relevance_score_decomp (title content : String) :
    (relevance_score title content).1 =
      bm25Score title content + 5 * (themeHitCount title content : ℚ) ∧
    (relevance_score title content).2.1.length = themeHitCount title content := by
  have hnodup : (CRITICAL_THEMES.map Prod.fst).Nodup := by decide
  constructor
  · rw [relevance_score, themeFold, bm25Score, themeHitCount,
      themeFoldAux_fst (titleTripledLower title content) CRITICAL_THEMES,
      List.countP_eq_length_filter]
  · rw [relevance_score, themeFold, themeHitCount,
      themeFoldAux_names (titleTripledLower title content) CRITICAL_THEMES _ hnodup
        (by intro t ht; simp),
      List.countP_eq_length_filter]
    simp

/-- C6: after `score_articles`, an article is flagged relevant exactly when
its normalized score reaches the run's threshold (stored on the article as
`alert_threshold`) or its theme list is non-empty; a non-empty theme list
forces `is_relevant` regardless of the score. -/
theorem is_relevant_iff_threshold_or_themes (arts ex : List Article) :
    ∀ art ∈ score_articles arts ex,
      (art.is_relevant ↔ (art.score_normalized ≥ art.alert_threshold ∨ art.themes ≠ [])) ∧
      (art.themes ≠ [] → art.is_relevant) := by
  intro art hart
  rw [score_articles_eq_map] at hart
  obtain ⟨a, _, rfl⟩ := List.mem_map.mp hart
  simp only [finalizeOne]
  rw [List.length_pos]
  exact ⟨Iff.rfl, fun h => Or.inr h⟩

/-- C6 witness: the theorem applied to the single output article of the
batch `[{"title": "fdic"}]`. -/
theorem is_relevant_iff_threshold_or_themes_witness :
    fdicOut ∈ score_articles [{ title := "fdic" }] [] ∧
      ((fdicOut.is_relevant ↔
          (fdicOut.score_normalized ≥ fdicOut.alert_threshold ∨ fdicOut.themes ≠ [])) ∧
        (fdicOut.themes ≠ [] → fdicOut.is_relevant)) :=
  have hpos : 0 < (score_articles [{ title := "fdic" }] []).length := by
    rw [score_articles_length]
    decide
  ⟨getD_mem_of_pos hpos,
    is_relevant_iff_threshold_or_themes [{ title := "fdic" }] [] fdicOut (getD_mem_of_pos hpos)⟩

/-- C2 (amended): the combined score is
`round4(0.4 * |sentiment_transformed| + 0.6 * (bm25_keyword_score + 5.0 * #themes))`:
the 5.0-per-theme boost is accumulated inside the relevance score and so is
weighted by 0.6 — each detected theme raises `score_combined` by 3.0, not
5.0, and the stored `score_relevance` already includes the boost. -/
theorem score_combined_theme_weighting (arts ex : List Article) :
    ∀ art ∈ score_articles arts ex,
      art.score_combined =
        round4 (0.4 * |(sentiment_score art.title art.content).1| +
          0.6 * ((bm25Score art.title art.content : ℝ) +
            5 * (themeHitCount art.title art.content : ℝ))) ∧
      art.themes.length = themeHitCount art.title art.content := by
  intro art hart
  rw [score_articles_eq_map] at hart
  obtain ⟨a, _, rfl⟩ := List.mem_map.mp hart
  have hdec := relevance_score_decomp a.title a.content
  simp only [finalizeOne, scoreOne]
  constructor
  · rw [hdec.1]
    congr 1
    push_cast
    ring
  · exact hdec.2

/-- C2 witness: the theorem applied to the single output article of the
batch `[{"title": "fdic"}]`. -/
theorem score_combined_theme_weighting_witness :
    fdicOut ∈ score_articles [{ title := "fdic" }] [] ∧
      (fdicOut.score_combined =
        round4 (0.4 * |(sentiment_score fdicOut.title fdicOut.content).1| +
          0.6 * ((bm25Score fdicOut.title fdicOut.content : ℝ) +
            5 * (themeHitCount fdicOut.title fdicOut.content : ℝ))) ∧
       fdicOut.themes.length = themeHitCount fdicOut.title fdicOut.content) :=
  have hpos : 0 < (score_articles [{ title := "fdic" }] []).length := by
    rw [score_articles_length]
    decide
  ⟨getD_mem_of_pos hpos,
    score_combined_theme_weighting [{ title := "fdic" }] [] fdicOut (getD_mem_of_pos hpos)⟩

theorem relevance_fdic : relevance_score "fdic" "" = (5, ["banking_crisis"], []) := by
  have h1 := relevance_score_decomp "fdic" ""
  have hbm : bm25Score "fdic" "" = 0 := by
    rw [bm25Score, show keywordFold (titleTripledLower "fdic" "") = (0, []) from by decide]
  have htc : themeHitCount "fdic" "" = 1 := by decide
  have hfst : (relevance_score "fdic" "").1 = 5 := by
    rw [h1.1, hbm, htc]
    norm_num
  have hsnd : (relevance_score "fdic" "").2 = (["banking_crisis"], []) := by decide
  calc relevance_score "fdic" ""
      = ((relevance_score "fdic" "").1, (relevance_score "fdic" "").2) := rfl
    _ = (5, ["banking_crisis"], []) := by rw [hfst, hsnd]

theorem rawSentiment_fdic : rawSentimentScore "fdic" "" = 0 := by
  simp only [rawSentimentScore]
  rw [show (tokenize (preprocess (("fdic" ++ " ") ++ ("fdic" ++ " ") ++ ("fdic" ++ " ") ++
      " " ++ ""))).dedup = ["fdic", "fdic fdic"] from by decide]
  simp only [List.map_cons, List.map_nil, List.sum_cons, List.sum_nil,
    show SENTIMENT_DICT.lookup "fdic" = none from by decide,
    show SENTIMENT_DICT.lookup "fdic fdic" = none from by decide]
  norm_num

theorem sentiment_fdic : (sentiment_score "fdic" "").1 = 0 := by
  simp only [sentiment_score, rawSentiment_fdic]
  norm_num

/-- C2 (counterexample): for the article `{"title": "fdic"}` (one theme,
no keywords, zero sentiment) the code produces `score_combined = 3.0 =
0.6 * 5.0`, while the claim's formula
`0.4*|sentiment| + 0.6*relevance + 5.0*#themes` gives `8.0`. -/
theorem score_combined_theme_weighting_cx :
    fdicOut.score_sentiment = 0 ∧ fdicOut.score_relevance = 5 ∧
      fdicOut.themes = ["banking_crisis"] ∧ fdicOut.score_combined = 3 ∧
      fdicOut.score_combined ≠
        0.4 * |fdicOut.score_sentiment| + 0.6 * ((fdicOut.score_relevance : ℝ)) +
          5 * (fdicOut.themes.length : ℝ) := by
  have hout : fdicOut = finalizeOne [{ title := "fdic" }] { title := "fdic" } := by
    rw [fdicOut, score_articles_eq_map]
    rfl
  have h40 : round4 (0 : ℝ) = 0 := by simpa using round4_intCast (α := ℝ) 0
  have h45 : round4 (5 : ℚ) = 5 := by simpa using round4_intCast (α := ℚ) 5
  have h43 : round4 (3 : ℝ) = 3 := by simpa using round4_intCast (α := ℝ) 3
  rw [hout]
  simp only [finalizeOne, scoreOne]
  rw [sentiment_fdic, relevance_fdic]
  norm_num [h40, h45, h43]

/-- Every article kept by the merge loop comes from the new batch, has a
non-empty normalized link, and its link was not among the seen links. -/
theorem dedupLoop_mem {seen : List String} {rest : List Article} :
    ∀ a ∈ dedupLoop seen rest,
      a ∈ rest ∧ normLink a.link ≠ "" ∧ normLink a.link ∉ seen := by
  induction rest generalizing seen with
  | nil => simp [dedupLoop]
  | cons x xs ih =>
    intro a ha
    rw [dedupLoop] at ha
    by_cases hc : normLink x.link = "" ∨ normLink x.link ∈ seen
    · rw [if_pos hc] at ha
      obtain ⟨hmem, hne, hnotin⟩ := ih a ha
      exact ⟨List.mem_cons_of_mem _ hmem, hne, hnotin⟩
    · rw [if_neg hc] at ha
      push_neg at hc
      rcases List.mem_cons.mp ha with rfl | ha'
      · exact ⟨List.mem_cons_self _ _, hc.1, hc.2⟩
      · obtain ⟨hmem, hne, hnotin⟩ := ih a ha'
        exact ⟨List.mem_cons_of_mem _ hmem, hne,
          fun hin => hnotin (List.mem_cons_of_mem _ hin)⟩

/-- The articles kept by the merge loop have pairwise-distinct normalized
links. -/
theorem dedupLoop_nodup (seen : List String) (rest : List Article) :
    ((dedupLoop seen rest).map (fun a => normLink a.link)).Nodup := by
  induction rest generalizing seen with
  | nil => simp [dedupLoop]
  | cons x xs ih =>
    rw [dedupLoop]
    by_cases hc : normLink x.link = "" ∨ normLink x.link ∈ seen
    · rw [if_pos hc]
      exact ih seen
    · rw [if_neg hc]
      simp only [List.map_cons, List.nodup_cons]
      refine ⟨?_, ih _⟩
      intro hin
      obtain ⟨b, hb, hbeq⟩ := List.mem_map.mp hin
      exact (dedupLoop_mem b hb).2.2 (by rw [hbeq]; exact List.mem_cons_self _ _)

/-- C9: if the existing articles have pairwise-distinct normalized links,
then so does the list returned by `deduplicate`, and every article it
contains either was already in `existing` or is a new article whose link
does not normalize to the empty string (intra-batch duplicates included:
no two kept articles share a normalized link). -/
theorem deduplicate_distinct_links (existing new_articles : List Article)
    (hex : (existing.map (fun a => normLink a.link)).Nodup) :
    ((deduplicate existing new_articles).map (fun a => normLink a.link)).Nodup ∧
      ∀ a ∈ deduplicate existing new_articles,
        a ∈ existing ∨ (a ∈ new_articles ∧ normLink a.link ≠ "") := by
  constructor
  · rw [deduplicate, List.map_append, List.nodup_append]
    refine ⟨hex, dedupLoop_nodup _ _, ?_⟩
    intro s hs hs2
    obtain ⟨b, hb, rfl⟩ := List.mem_map.mp hs2
    exact (dedupLoop_mem b hb).2.2 hs
  · intro a ha
    rcases List.mem_append.mp ha with h | h
    · exact Or.inl h
    · exact Or.inr ⟨(dedupLoop_mem a h).1, (dedupLoop_mem a h).2.1⟩

/-- C9 witness: the theorem applied to a concrete store: one existing
article with link `"http://A/"`, and a new batch containing a duplicate of
it (`"http://a"`), a fresh link `"x"`, an intra-batch duplicate (`"x/"`)
and an empty link. -/
theorem deduplicate_distinct_links_witness :
    (([⟨"", "", "http://A/"⟩] : List Article).map (fun a => normLink a.link)).Nodup ∧
      ((deduplicate [⟨"", "", "http://A/"⟩]
          [⟨"", "", "http://a"⟩, ⟨"", "", "x"⟩, ⟨"", "", "x/"⟩, ⟨"", "", ""⟩]).map
            (fun a => normLink a.link)).Nodup ∧
      ∀ a ∈ deduplicate [⟨"", "", "http://A/"⟩]
          [⟨"", "", "http://a"⟩, ⟨"", "", "x"⟩, ⟨"", "", "x/"⟩, ⟨"", "", ""⟩],
        a ∈ ([⟨"", "", "http://A/"⟩] : List Article) ∨
          (a ∈ ([⟨"", "", "http://a"⟩, ⟨"", "", "x"⟩, ⟨"", "", "x/"⟩, ⟨"", "", ""⟩] :
              List Article) ∧ normLink a.link ≠ "") :=
  have hex : (([⟨"", "", "http://A/"⟩] : List Article).map (fun a => normLink a.link)).Nodup := by
    decide
  ⟨hex,
    (deduplicate_distinct_links [⟨"", "", "http://A/"⟩]
      [⟨"", "", "http://a"⟩, ⟨"", "", "x"⟩, ⟨"", "", "x/"⟩, ⟨"", "", ""⟩] hex).1,
    (deduplicate_distinct_links [⟨"", "", "http://A/"⟩]
      [⟨"", "", "http://a"⟩, ⟨"", "", "x"⟩, ⟨"", "", "x/"⟩, ⟨"", "", ""⟩] hex).2⟩

end MacroLab
